import Mathlib

/- Verification model of the mcp-gateway core (src/mcp_gateway/server_manager.py,
   src/mcp_gateway/mcp_transport.py, src/mcp_gateway/main.py).

   Modelling conventions:
   - Python dicts are insertion-ordered association lists; dict assignment keeps
     the position of an existing key and appends a new one.
   - The Python set of enabled server ids is a list of ids in iteration order.
   - Opaque JSON values (input_schema, arguments, content) are the Json type.
   - The async code is modelled operation-by-operation; every await point is an
     observable intermediate state, recorded in an explicit trace, so that
     invariants can be stated at every point where another task may run.
   - Effects of the outside world (subprocess spawn, MCP handshake, the lists
     and results a child returns) enter as explicit outcome parameters. -/

/-- Untyped JSON values, used for input_schema, arguments and tool-call content. -/
inductive Json where
  | null
  | bool (b : Bool)
  | num (n : Int)
  | str (s : String)
  | arr (elems : List Json)
  | obj (fields : List (String × Json))

/-- ServerStatus from models.py: disconnected, connecting, connected, error. -/
inductive ServerStatus where
  | disconnected
  | connecting
  | connected
  | error
deriving DecidableEq

/-- ServerConfig from models.py. -/
structure ServerConfig where
  command : String
  args : List String
  env : List (String × String)
  password_command : List (String × List String)

/-- ToolSchema from models.py; input_schema is opaque JSON. -/
structure ToolSchema where
  name : String
  description : String
  input_schema : Json

/-- Lookup in a Python-dict association list (first match wins; keys are unique
by construction of dictInsert). -/
def alookup {β : Type} (k : String) : List (String × β) → Option β
  | [] => none
  | p :: ps => if p.1 = k then some p.2 else alookup k ps

/-- Python dict assignment d[k] = v: overwrite in place if the key exists,
append otherwise. -/
def dictInsert {β : Type} (d : List (String × β)) (k : String) (v : β) : List (String × β) :=
  if (alookup k d).isSome then
    d.map (fun p => if p.1 = k then (k, v) else p)
  else
    d ++ [(k, v)]

/-- Dict comprehension of MCPServerConnection._list_tools: tool name to schema,
in the order the child listed its tools. -/
def mkToolDict (ts : List ToolSchema) : List (String × ToolSchema) :=
  ts.foldl (fun d t => dictInsert d t.name t) []

/-- Mutable fields of one MCPServerConnection (server_manager.py lines 26-37).
The three Booleans model whether _stdio_context, _session_context and _session
are non-None. -/
structure ConnState where
  server_id : String
  config : ServerConfig
  status : ServerStatus
  error : Option String
  tools : List (String × ToolSchema)
  stdioCtx : Bool
  sessionCtx : Bool
  session : Bool

/-- State of a freshly constructed MCPServerConnection. -/
def initConn (sid : String) (cfg : ServerConfig) : ConnState :=
  ⟨sid, cfg, ServerStatus.disconnected, none, [], false, false, false⟩

/-- Content elements of a child tools/call result as the MCP SDK parses them:
TextContent, or a non-text shape (ImageContent is the representative). -/
inductive SDKContent where
  | text (s : String)
  | image (data mimeType : String)

/-- Surrounds a value with single quotes, as Python repr does for strings. -/
def pyQuote (v : String) : String := "\x27" ++ v ++ "\x27"

/-- The str() rendering of a pydantic content model, as produced by
str(content) in MCPServerConnection.call_tool for non-text content. -/
def pythonStr : SDKContent → String
  | SDKContent.text s => "type=" ++ pyQuote "text" ++ " text=" ++ pyQuote s
  | SDKContent.image d m =>
      "type=" ++ pyQuote "image" ++ " data=" ++ pyQuote d ++ " mimeType=" ++ pyQuote m

/-- Normalization performed in MCPServerConnection.call_tool (lines 145-152):
TextContent becomes a type/text object, every other shape becomes a type/data
object whose data is the str() of the SDK model. -/
def normalizeContent : SDKContent → Json
  | SDKContent.text s => Json.obj [("type", Json.str "text"), ("text", Json.str s)]
  | SDKContent.image d m =>
      Json.obj [("type", Json.str "image"),
                ("data", Json.str (pythonStr (SDKContent.image d m)))]

/-- Wire form of a child content element as the MCP protocol serializes it:
what a client would receive if the element were passed through unmodified.
This definition follows the spec wording for the comparison in C4. -/
def wireContent : SDKContent → Json
  | SDKContent.text s => Json.obj [("type", Json.str "text"), ("text", Json.str s)]
  | SDKContent.image d m =>
      Json.obj [("type", Json.str "image"), ("data", Json.str d),
                ("mimeType", Json.str m)]

/-- Outcome of the environment during one connect() attempt: which awaited step
raises (stdio_client enter, ClientSession enter, initialize), or the handshake
succeeds and tools/list either raises (swallowed by _list_tools) or returns a
list of tools. Secret resolution is absent because its failures are swallowed
and never fail connect (lines 39-59). -/
inductive ConnectOutcome where
  | failStdio (e : String)
  | failSession (e : String)
  | failInit (e : String)
  | listFail
  | listOk (ts : List ToolSchema)

namespace MCPServerConnection

/-- Model of disconnect() (server_manager.py lines 111-134). Returns the final
state and the list of observable intermediate states, one per await point (the
two __aexit__ calls). The closing assignments to status and tools at lines
132-133 happen after the last await, atomically with it. -/
def disconnect (c : ConnState) : ConnState × List ConnState :=
  let c1 := if c.sessionCtx then
              { c with sessionCtx := false, session := false }
            else c
  let trace1 : List ConnState := if c.sessionCtx then [c] else []
  let c2 := if c1.stdioCtx then { c1 with stdioCtx := false } else c1
  let trace2 : List ConnState := trace1 ++ (if c1.stdioCtx then [c1] else [])
  ({ c2 with status := ServerStatus.disconnected, tools := [] }, trace2)

/-- Shared except-path of connect() (lines 104-109): set status to error,
record the message, run disconnect. Returns final state and trace of the
disconnect awaits. -/
def connectFail (cx : ConnState) (e : String) : ConnState × List ConnState :=
  disconnect { cx with status := ServerStatus.error, error := some e }

/-- Model of connect() (server_manager.py lines 61-109). Returns the Boolean
result, the final state, and the observable states at every await point, in
order. Assignments made between two awaits are atomic with respect to other
tasks. The key source facts reflected here: _stdio_context is assigned before
its __aenter__ is awaited (line 87-88), _session_context before its
__aenter__ (line 91-92), _session after that await; the tools dict and the
Connected status are both assigned after the last await with no suspension
between them (lines 166-173 and 100). -/
def connect (c : ConnState) (o : ConnectOutcome) : Bool × ConnState × List ConnState :=
  if c.session then (true, c, [])
  else
    let c1 := { c with status := ServerStatus.connecting, error := none, stdioCtx := true }
    let c2 := { c1 with sessionCtx := true }
    let c3 := { c2 with session := true }
    match o with
    | ConnectOutcome.failStdio e =>
        let r := connectFail c1 e
        (false, r.1, [c1] ++ r.2)
    | ConnectOutcome.failSession e =>
        let r := connectFail c2 e
        (false, r.1, [c1, c2] ++ r.2)
    | ConnectOutcome.failInit e =>
        let r := connectFail c3 e
        (false, r.1, [c1, c2, c3] ++ r.2)
    | ConnectOutcome.listFail =>
        (true, { c3 with status := ServerStatus.connected }, [c1, c2, c3, c3])
    | ConnectOutcome.listOk ts =>
        (true, { c3 with status := ServerStatus.connected, tools := mkToolDict ts },
         [c1, c2, c3, c3])

/-- Model of call_tool (server_manager.py lines 136-156). The child parameter
is the environment outcome of session.call_tool: either an exception text or
the content array of the result. The state is not mutated; the returned value
is the normalized content list, or the raised RuntimeError message. -/
def call_tool (c : ConnState) (child : Except String (List SDKContent)) :
    Except String (List Json) :=
  if c.status ≠ ServerStatus.connected ∨ c.session = false then
    Except.error ("Server " ++ c.server_id ++ " is not connected")
  else
    match child with
    | Except.error e => Except.error ("Tool call failed: " ++ e)
    | Except.ok content => Except.ok (content.map normalizeContent)

end MCPServerConnection

/-- State of an MCPServerManager (server_manager.py lines 183-187): the loaded
configs, the connection dict, and the enabled set (as a list in iteration
order, duplicate-free). -/
structure ManagerState where
  configs : List (String × ServerConfig)
  servers : List (String × ConnState)
  enabled : List String

/-- Result of enable_server, instrumented with the number of connect attempts
the call performed (0 or 1), so that spec statements about "no connect is
attempted" are expressible. -/
structure EnableResult where
  ok : Bool
  state : ManagerState
  connectAttempts : Nat

namespace MCPServerManager

/-- Model of enable_server (server_manager.py lines 241-258): unknown id gives
False with no change; an id already in the enabled set gives True with no
change and no connect; otherwise the id is added to the enabled set, a
connection is created if absent, and connect() runs. -/
def enable_server (m : ManagerState) (sid : String) (o : ConnectOutcome) : EnableResult :=
  match alookup sid m.configs with
  | none => ⟨false, m, 0⟩
  | some cfg =>
    if sid ∈ m.enabled then ⟨true, m, 0⟩
    else
      let conn := (alookup sid m.servers).getD (initConn sid cfg)
      let r := MCPServerConnection.connect conn o
      ⟨r.1, ⟨m.configs, dictInsert m.servers sid r.2.1, m.enabled ++ [sid]⟩, 1⟩

/-- Model of disable_server (server_manager.py lines 260-270). -/
def disable_server (m : ManagerState) (sid : String) : Bool × ManagerState :=
  match alookup sid m.configs with
  | none => (false, m)
  | some _ =>
    let en := m.enabled.filter (fun x => x ≠ sid)
    match alookup sid m.servers with
    | some conn =>
        (true, ⟨m.configs, dictInsert m.servers sid (MCPServerConnection.disconnect conn).1, en⟩)
    | none => (true, ⟨m.configs, m.servers, en⟩)

/-- Model of get_all_tools (server_manager.py lines 272-280): iterate the
enabled set; for each id whose connection exists and is connected, append
(id, schema) for every schema in the tools dict, in dict order. -/
def get_all_tools (m : ManagerState) : List (String × ToolSchema) :=
  m.enabled.flatMap (fun sid =>
    match alookup sid m.servers with
    | some conn =>
        if conn.status = ServerStatus.connected then
          conn.tools.map (fun p => (sid, p.2))
        else []
    | none => [])

/-- Model of MCPServerManager.call_tool (server_manager.py lines 289-301):
the three RuntimeError guards, then the connection-level call. -/
def call_tool (m : ManagerState) (sid tname : String)
    (child : Except String (List SDKContent)) : Except String (List Json) :=
  match alookup sid m.servers with
  | none => Except.error ("Server " ++ sid ++ " not found")
  | some conn =>
    if conn.status ≠ ServerStatus.connected then
      Except.error ("Server " ++ sid ++ " is not connected")
    else if (alookup tname conn.tools).isNone then
      Except.error ("Tool " ++ tname ++ " not found on server " ++ sid)
    else
      MCPServerConnection.call_tool conn child

end MCPServerManager

/-- Auxiliary scan for splitFirstDunder: finds the leftmost occurrence of two
consecutive underscores and splits the character list around it. -/
def findDunder : List Char → Option (List Char × List Char)
  | [] => none
  | c :: cs =>
    match cs with
    | c2 :: rest =>
        if c = '_' ∧ c2 = '_' then some ([], rest)
        else
          match findDunder cs with
          | some (a, b) => some (c :: a, b)
          | none => none
    | [] => none

/-- Python tool_name.split("\x5f\x5f", 1) restricted to the case used by the
dispatcher: the leftmost double-underscore split of a string, or none when the
separator does not occur (matching the "in" test at mcp_transport.py line 150). -/
def splitFirstDunder (s : String) : Option (String × String) :=
  match findDunder s.data with
  | some (a, b) => some (String.mk a, String.mk b)
  | none => none

/-- JSON-RPC outputs of the transport dispatcher handlers: a result object or
an error with code and message, both carrying the request id verbatim. -/
inductive RpcOut where
  | ok (id : Json) (result : Json)
  | err (id : Json) (code : Int) (message : String)

/-- Result of the tools/call handler, instrumented with the pair that was
routed to the manager (none when no manager call was made). -/
structure ToolsCallOut where
  routed : Option (String × String)
  out : RpcOut

namespace Transport

/-- Model of _handle_tools_call (mcp_transport.py lines 140-176), for a live
manager. params.name defaults to the empty string when absent; a name without
a double-underscore separator is rejected with -32602; otherwise the name is
split at the first separator, the manager is called with the two parts, a
list result is passed through as the content array, and any raised exception
text is returned as a -32603 error. -/
def handle_tools_call (m : ManagerState) (reqId : Json) (pname : Option String)
    (_args : Json) (child : Except String (List SDKContent)) : ToolsCallOut :=
  let tool_name := pname.getD ""
  match splitFirstDunder tool_name with
  | none =>
      ⟨none, RpcOut.err reqId (-32602)
        ("Invalid tool name format: " ++ tool_name ++ ". Expected: server_id__tool_name")⟩
  | some (sid, tname) =>
      match MCPServerManager.call_tool m sid tname child with
      | Except.ok content => ⟨some (sid, tname), RpcOut.ok reqId (Json.obj [("content", Json.arr content)])⟩
      | Except.error e => ⟨some (sid, tname), RpcOut.err reqId (-32603) e⟩

/-- Model of the tool-entry formatting loop of _handle_tools_list
(mcp_transport.py lines 125-135): one object per catalog pair, accumulated by
appending. -/
def toolsListEntries (m : ManagerState) : List Json :=
  (MCPServerManager.get_all_tools m).foldl
    (fun acc p =>
      acc ++ [Json.obj
        [("name", Json.str (p.1 ++ "__" ++ p.2.name)),
         ("description", Json.str ("[" ++ p.1 ++ "] " ++ p.2.description)),
         ("inputSchema", p.2.input_schema)]])
    []

/-- Model of _handle_tools_list (mcp_transport.py lines 119-138) for a live
manager. -/
def handle_tools_list (m : ManagerState) (reqId : Json) : RpcOut :=
  RpcOut.ok reqId (Json.obj [("tools", Json.arr (toolsListEntries m))])

end Transport

/-- HTTP-level result of the REST endpoints in main.py: status code plus the
success flag and error text of the returned body (when the body has them). -/
structure HttpOut where
  status : Nat
  success : Bool
  errorMsg : Option String
  result : Option (List Json)

namespace Rest

/-- Model of the POST /api/tools/{server_id}/{tool_name} endpoint (main.py
lines 206-230): every manager exception is caught and returned as a
success=false body with the default HTTP status 200. -/
def api_call_tool (m : ManagerState) (sid tname : String)
    (child : Except String (List SDKContent)) : HttpOut :=
  match MCPServerManager.call_tool m sid tname child with
  | Except.ok r => ⟨200, true, none, some r⟩
  | Except.error e => ⟨200, false, some e, none⟩

/-- Model of the POST /tools/{server_id}/{tool_name} endpoint (main.py lines
409-444): a manager exception raises HTTPException(500). -/
def execute_tool (m : ManagerState) (sid tname : String)
    (child : Except String (List SDKContent)) : HttpOut :=
  match MCPServerManager.call_tool m sid tname child with
  | Except.ok r => ⟨200, true, none, some r⟩
  | Except.error e => ⟨500, false, some e, none⟩

end Rest

/-- Operations the manager ever performs on one connection: a connect attempt
(enable_server), a disconnect (disable_server, shutdown, or the connect
failure path), or a tool call (which never mutates connection state). -/
inductive ConnOp where
  | connect (o : ConnectOutcome)
  | disconnect
  | callTool

/-- Runs one operation: final state plus observable intermediate states. A
tool call suspends while awaiting the child, so the unchanged state is
observable during it. -/
def runOp (c : ConnState) : ConnOp → ConnState × List ConnState
  | ConnOp.connect o =>
      let r := MCPServerConnection.connect c o
      (r.2.1, r.2.2)
  | ConnOp.disconnect => MCPServerConnection.disconnect c
  | ConnOp.callTool => (c, [c])

/-- Runs a sequence of operations, collecting every observable state: the
intermediate states of each operation and the resting state after it. -/
def runOps (c : ConnState) : List ConnOp → ConnState × List ConnState
  | [] => (c, [])
  | op :: ops =>
      let r1 := runOp c op
      let r2 := runOps r1.1 ops
      (r2.1, r1.2 ++ [r1.1] ++ r2.2)

/-- All states observable from a starting state under a sequence of
operations, the starting state included. -/
def observables (c : ConnState) (ops : List ConnOp) : List ConnState :=
  c :: (runOps c ops).2

/-- Catalog invariant of the spec: a non-empty tool catalog implies the
Connected state. -/
def catalogInv (c : ConnState) : Prop :=
  c.tools ≠ [] → c.status = ServerStatus.connected

/-- Invariant holding at every resting state (between operations) of a
connection: the catalog invariant, the catalog is empty without a live
session, a live session means Connected, and a live session implies its
context manager is recorded. -/
def restInv (c : ConnState) : Prop :=
  (c.tools ≠ [] → c.status = ServerStatus.connected) ∧
  (c.session = false → c.tools = []) ∧
  (c.session = true → c.status = ServerStatus.connected) ∧
  (c.session = true → c.sessionCtx = true)

/-- Character-list core of a lexicographic string comparison (by code point),
used only to state the ordering the spec asserts for get_all_tools. -/
def strLtChars : List Char → List Char → Bool
  | [], [] => false
  | [], _ :: _ => true
  | _ :: _, [] => false
  | c :: cs, d :: ds =>
      if c.toNat < d.toNat then true
      else if d.toNat < c.toNat then false
      else strLtChars cs ds

/-- Lexicographic string comparison by code point. -/
def strLtB (a b : String) : Bool :=
  strLtChars a.data b.data

/-- Ordering the spec asserts for all_tools entries: by child id, then by tool
name. -/
def toolPairLeB (p q : String × ToolSchema) : Bool :=
  strLtB p.1 q.1 || (p.1 = q.1 && (p.2.name = q.2.name || strLtB p.2.name q.2.name))

/-- Boolean test that a list of (child id, schema) pairs is sorted by child
id, then tool name. -/
def pairsSortedB : List (String × ToolSchema) → Bool
  | [] => true
  | [_] => true
  | p :: q :: rest => toolPairLeB p q && pairsSortedB (q :: rest)

/-- Tests whether a JSON value is an object carrying the given key. -/
def jsonHasKey (k : String) : Json → Bool
  | Json.obj fields => fields.any (fun p => p.1 = k)
  | _ => false

/- Concrete states used by witnesses and counterexamples. -/

/-- Example configuration. -/
def cfgEx : ServerConfig := ⟨"echo", [], [], []⟩

/-- Example configuration whose command is the empty string. -/
def cfgEmptyCmd : ServerConfig := ⟨"", [], [], []⟩

/-- Example tool named t. -/
def toolT : ToolSchema := ⟨"t", "a tool", Json.null⟩

/-- Example tool whose name sorts first. -/
def toolAlpha : ToolSchema := ⟨"alpha", "first", Json.null⟩

/-- Example tool whose name sorts last. -/
def toolBeta : ToolSchema := ⟨"beta", "last", Json.null⟩

/-- A connected connection for child c with one tool t. -/
def connUp : ConnState :=
  ⟨"c", cfgEx, ServerStatus.connected, none, [("t", toolT)], true, true, true⟩

/-- A connected connection whose catalog lists beta before alpha, the order
the child announced them. -/
def connBetaAlpha : ConnState :=
  ⟨"c", cfgEx, ServerStatus.connected, none,
   [("beta", toolBeta), ("alpha", toolAlpha)], true, true, true⟩

/-- A disconnected connection for child c. -/
def connDown : ConnState :=
  ⟨"c", cfgEx, ServerStatus.disconnected, none, [], false, false, false⟩

/-- Manager with the single connected child c. -/
def mUp : ManagerState := ⟨[("c", cfgEx)], [("c", connUp)], ["c"]⟩

/-- Manager whose connected child c lists its tools in the order beta, alpha. -/
def mBetaAlpha : ManagerState := ⟨[("c", cfgEx)], [("c", connBetaAlpha)], ["c"]⟩

/-- Manager with child c configured but its connection disconnected. -/
def mDown : ManagerState := ⟨[("c", cfgEx)], [("c", connDown)], []⟩

/-- Manager with no configuration at all. -/
def mEmpty : ManagerState := ⟨[], [], []⟩

/-- Manager with child c configured but never enabled. -/
def mFresh : ManagerState := ⟨[("c", cfgEx)], [], []⟩

/-- First enable of child c on mFresh, with the spawn failing. -/
def enableOnce : EnableResult :=
  MCPServerManager.enable_server mFresh "c" (ConnectOutcome.failStdio "boom")

/-- Second enable of child c after the failed first one. -/
def enableTwice : EnableResult :=
  MCPServerManager.enable_server enableOnce.state "c" (ConnectOutcome.failStdio "boom")

/-- Connection state of child c after the failed first enable. -/
def connAfterFail : ConnState :=
  ⟨"c", cfgEx, ServerStatus.disconnected, some "boom", [], false, false, false⟩

/-- A non-text content element returned by a child. -/
def imgContent : SDKContent := SDKContent.image "abc" "image/png"

/-- Operation sequence performing one successful connect that lists tool t. -/
def opsEx : List ConnOp := [ConnOp.connect (ConnectOutcome.listOk [toolT])]

/-- Resting state after the successful connect of opsEx. -/
def stateEx : ConnState :=
  (MCPServerConnection.connect (initConn "c" cfgEx) (ConnectOutcome.listOk [toolT])).2.1

theorem restInv_initConn (sid : String) (cfg : ServerConfig) : restInv (initConn sid cfg) := by
  simp [restInv, initConn]

theorem disconnect_fst_status (c : ConnState) :
    (MCPServerConnection.disconnect c).1.status = ServerStatus.disconnected := rfl

theorem disconnect_fst_tools (c : ConnState) :
    (MCPServerConnection.disconnect c).1.tools = [] := rfl

theorem disconnect_fst_error (c : ConnState) :
    (MCPServerConnection.disconnect c).1.error = c.error := by
  by_cases hs : c.sessionCtx <;> by_cases ht : c.stdioCtx <;>
    simp [MCPServerConnection.disconnect, hs, ht]

theorem disconnect_fst_session (c : ConnState) :
    (MCPServerConnection.disconnect c).1.session = if c.sessionCtx then false else c.session := by
  by_cases hs : c.sessionCtx <;> by_cases ht : c.stdioCtx <;>
    simp [MCPServerConnection.disconnect, hs, ht]

theorem disconnect_trace (c : ConnState) :
    ∀ s ∈ (MCPServerConnection.disconnect c).2, s.status = c.status ∧ s.tools = c.tools := by
  by_cases hs : c.sessionCtx <;> by_cases ht : c.stdioCtx <;>
    simp [MCPServerConnection.disconnect, hs, ht]

theorem connectFail_fst (cx : ConnState) (e : String) :
    (MCPServerConnection.connectFail cx e).1.status = ServerStatus.disconnected ∧
    (MCPServerConnection.connectFail cx e).1.tools = [] ∧
    (MCPServerConnection.connectFail cx e).1.error = some e ∧
    (MCPServerConnection.connectFail cx e).1.session
      = if cx.sessionCtx then false else cx.session := by
  refine ⟨disconnect_fst_status _, disconnect_fst_tools _, ?_, ?_⟩
  · rw [MCPServerConnection.connectFail, disconnect_fst_error]
  · rw [MCPServerConnection.connectFail, disconnect_fst_session]

theorem connectFail_trace (cx : ConnState) (e : String) :
    ∀ s ∈ (MCPServerConnection.connectFail cx e).2,
      s.status = ServerStatus.error ∧ s.tools = cx.tools := by
  intro s hmem
  have h := disconnect_trace _ s hmem
  exact h

theorem disconnect_inv (c : ConnState) (h : restInv c) :
    restInv (MCPServerConnection.disconnect c).1 ∧
    ∀ s ∈ (MCPServerConnection.disconnect c).2, catalogInv s := by
  obtain ⟨h1, h2, h3, h4⟩ := h
  constructor
  · refine ⟨?_, ?_, ?_, ?_⟩
    · intro htl; exact absurd (disconnect_fst_tools c) htl
    · intro _; exact disconnect_fst_tools c
    · intro hsess
      rw [disconnect_fst_session] at hsess
      by_cases hs : c.sessionCtx
      · simp [hs] at hsess
      · simp [hs] at hsess
        exact absurd (h4 hsess) hs
    · intro hsess
      rw [disconnect_fst_session] at hsess
      by_cases hs : c.sessionCtx
      · simp [hs] at hsess
      · simp [hs] at hsess
        exact absurd (h4 hsess) hs
  · intro s hmem
    obtain ⟨hst, htl⟩ := disconnect_trace c s hmem
    intro hne
    rw [htl] at hne
    rw [hst]
    exact h1 hne

theorem catalogInv_of_tools_nil (s : ConnState) (h : s.tools = []) : catalogInv s :=
  fun hne => absurd h hne

theorem restInv_of_fields (d : ConnState) (hst : d.status = ServerStatus.disconnected)
    (htl : d.tools = []) (hse : d.session = false) : restInv d := by
  refine ⟨?_, ?_, ?_, ?_⟩ <;> simp [htl, hse, hst]

theorem restInv_connectFail (cx : ConnState) (e : String)
    (hs : cx.session = false ∨ cx.sessionCtx = true) :
    restInv (MCPServerConnection.connectFail cx e).1 := by
  obtain ⟨hst, htl, _, hse⟩ := connectFail_fst cx e
  apply restInv_of_fields _ hst htl
  rw [hse]
  rcases hs with h | h
  · by_cases hc : cx.sessionCtx <;> simp [hc, h]
  · simp [h]

theorem connect_inv (c : ConnState) (o : ConnectOutcome) (h : restInv c) :
    restInv (MCPServerConnection.connect c o).2.1 ∧
    ∀ s ∈ (MCPServerConnection.connect c o).2.2, catalogInv s := by
  by_cases hsess : c.session = true
  · constructor
    · simpa [MCPServerConnection.connect, hsess] using h
    · simp [MCPServerConnection.connect, hsess]
  · have hsf : c.session = false := by simpa using hsess
    have htools : c.tools = [] := h.2.1 hsf
    cases o with
    | failStdio e =>
        simp only [MCPServerConnection.connect, hsf, Bool.false_eq_true, if_false,
          List.singleton_append]
        constructor
        · exact restInv_connectFail _ e (Or.inl rfl)
        · intro s hmem
          rcases List.mem_cons.mp hmem with rfl | hmem
          · exact catalogInv_of_tools_nil _ htools
          · exact catalogInv_of_tools_nil _ ((connectFail_trace _ e s hmem).2.trans htools)
    | failSession e =>
        simp only [MCPServerConnection.connect, hsf, Bool.false_eq_true, if_false,
          List.cons_append, List.singleton_append]
        constructor
        · exact restInv_connectFail _ e (Or.inr rfl)
        · intro s hmem
          rcases List.mem_cons.mp hmem with rfl | hmem
          · exact catalogInv_of_tools_nil _ htools
          rcases List.mem_cons.mp hmem with rfl | hmem
          · exact catalogInv_of_tools_nil _ htools
          · exact catalogInv_of_tools_nil _ ((connectFail_trace _ e s hmem).2.trans htools)
    | failInit e =>
        simp only [MCPServerConnection.connect, hsf, Bool.false_eq_true, if_false,
          List.cons_append, List.singleton_append]
        constructor
        · exact restInv_connectFail _ e (Or.inr rfl)
        · intro s hmem
          rcases List.mem_cons.mp hmem with rfl | hmem
          · exact catalogInv_of_tools_nil _ htools
          rcases List.mem_cons.mp hmem with rfl | hmem
          · exact catalogInv_of_tools_nil _ htools
          rcases List.mem_cons.mp hmem with rfl | hmem
          · exact catalogInv_of_tools_nil _ htools
          · exact catalogInv_of_tools_nil _ ((connectFail_trace _ e s hmem).2.trans htools)
    | listFail =>
        simp only [MCPServerConnection.connect, hsf, Bool.false_eq_true, if_false]
        constructor
        · exact ⟨fun _ => rfl, fun hh => by simp at hh, fun _ => rfl, fun _ => rfl⟩
        · intro s hmem
          simp only [List.mem_cons, List.not_mem_nil, or_false] at hmem
          rcases hmem with rfl | rfl | rfl | rfl <;> exact catalogInv_of_tools_nil _ htools
    | listOk ts =>
        simp only [MCPServerConnection.connect, hsf, Bool.false_eq_true, if_false]
        constructor
        · exact ⟨fun _ => rfl, fun hh => by simp at hh, fun _ => rfl, fun _ => rfl⟩
        · intro s hmem
          simp only [List.mem_cons, List.not_mem_nil, or_false] at hmem
          rcases hmem with rfl | rfl | rfl | rfl <;> exact catalogInv_of_tools_nil _ htools

theorem runOp_inv (c : ConnState) (op : ConnOp) (h : restInv c) :
    restInv (runOp c op).1 ∧ ∀ s ∈ (runOp c op).2, catalogInv s := by
  cases op with
  | connect o => simpa [runOp] using connect_inv c o h
  | disconnect => simpa [runOp] using disconnect_inv c h
  | callTool =>
      refine ⟨h, ?_⟩
      intro s hmem
      simp only [runOp, List.mem_singleton] at hmem
      subst hmem
      exact h.1

theorem runOps_inv (ops : List ConnOp) (c : ConnState) (h : restInv c) :
    ∀ s ∈ (runOps c ops).2, catalogInv s := by
  induction ops generalizing c with
  | nil => simp [runOps]
  | cons op ops ih =>
      obtain ⟨hrest, hmicro⟩ := runOp_inv c op h
      intro s hmem
      simp only [runOps, List.mem_append, List.mem_singleton] at hmem
      rcases hmem with (hmem | rfl) | hmem
      · exact hmicro s hmem
      · exact hrest.1
      · exact ih (runOp c op).1 hrest s hmem

theorem disconnect_trace_error (c : ConnState) :
    ∀ s ∈ (MCPServerConnection.disconnect c).2, s.error = c.error := by
  by_cases hs : c.sessionCtx <;> by_cases ht : c.stdioCtx <;>
    simp [MCPServerConnection.disconnect, hs, ht]

theorem disconnect_trace_ne_nil (c : ConnState) (h : c.stdioCtx = true) :
    (MCPServerConnection.disconnect c).2 ≠ [] := by
  by_cases hs : c.sessionCtx <;> simp [MCPServerConnection.disconnect, hs, h]

theorem connect_fail_branch (cx : ConnState) (e : String) (pre : List ConnState)
    (hcx : cx.stdioCtx = true) :
    ∃ s ∈ pre ++ (MCPServerConnection.connectFail cx e).2,
      s.status = ServerStatus.error ∧ s.error = some e := by
  obtain ⟨s, hs⟩ := List.exists_mem_of_ne_nil _ (disconnect_trace_ne_nil
    { cx with status := ServerStatus.error, error := some e } hcx)
  refine ⟨s, List.mem_append.mpr (Or.inr hs), (connectFail_trace cx e s hs).1, ?_⟩
  exact (disconnect_trace_error _ s hs).trans rfl

/-- C10: enable_server on an id that is not in the loaded configuration
returns False, leaves the manager state entirely unchanged, and attempts no
connect. -/
theorem enable_unknown_id_noop (m : ManagerState) (sid : String) (o : ConnectOutcome)
    (h : alookup sid m.configs = none) :
    MCPServerManager.enable_server m sid o = ⟨false, m, 0⟩ := by
  simp [MCPServerManager.enable_server, h]

theorem enable_unknown_id_noop_witness :
    alookup "ghost" mFresh.configs = none ∧
    MCPServerManager.enable_server mFresh "ghost" (ConnectOutcome.listOk [])
      = ⟨false, mFresh, 0⟩ :=
  ⟨rfl, enable_unknown_id_noop mFresh "ghost" (ConnectOutcome.listOk []) rfl⟩

/-- C3: at every observable point of any sequence of operations on a child
connection started from its initial state, a non-empty tool catalog implies
the Connected state. The observable points include every await point inside
connect and disconnect; the catalog assignment and the Connected transition
share one atomic stretch between awaits, so no point separates them. -/
theorem catalog_nonempty_implies_connected (sid : String) (cfg : ServerConfig)
    (ops : List ConnOp) (s : ConnState)
    (hmem : s ∈ observables (initConn sid cfg) ops)
    (hne : s.tools ≠ []) : s.status = ServerStatus.connected := by
  rcases List.mem_cons.mp (by simpa [observables] using hmem) with rfl | hmem2
  · exact absurd rfl hne
  · exact runOps_inv ops _ (restInv_initConn sid cfg) s hmem2 hne

theorem catalog_nonempty_implies_connected_witness :
    stateEx ∈ observables (initConn "c" cfgEx) opsEx ∧ stateEx.tools ≠ [] ∧
    stateEx.status = ServerStatus.connected := by
  have hmem : stateEx ∈ observables (initConn "c" cfgEx) opsEx := by
    simp [observables, runOps, runOp, opsEx, stateEx]
  have hne : stateEx.tools ≠ [] := by
    simp [stateEx, MCPServerConnection.connect, initConn, mkToolDict, dictInsert, alookup,
      toolT, cfgEx]
  exact ⟨hmem, hne, catalog_nonempty_implies_connected "c" cfgEx opsEx stateEx hmem hne⟩

/-- C2 counterexample: a connect whose spawn step fails (as with an empty
configured command) ends with the child in the Disconnected state, not the
Error state the claim asserts. -/
theorem connect_empty_command_not_error :
    (MCPServerConnection.connect (initConn "bad" cfgEmptyCmd)
        (ConnectOutcome.failStdio "spawn failed")).2.1.status
      = ServerStatus.disconnected ∧
    ServerStatus.disconnected ≠ ServerStatus.error := ⟨rfl, by decide⟩

/-- C2 (amended): if any step of connect() fails, connect returns False, the
Error state with the recorded error string is observable while the failure
path runs its disconnect, and the state when connect() returns is
Disconnected with the error string still recorded. -/
theorem connect_failure_disconnected_with_error (c : ConnState) (e : String)
    (o : ConnectOutcome) (hsf : c.session = false)
    (ho : o = ConnectOutcome.failStdio e ∨ o = ConnectOutcome.failSession e ∨
          o = ConnectOutcome.failInit e) :
    (MCPServerConnection.connect c o).1 = false ∧
    (MCPServerConnection.connect c o).2.1.status = ServerStatus.disconnected ∧
    (MCPServerConnection.connect c o).2.1.error = some e ∧
    ∃ s ∈ (MCPServerConnection.connect c o).2.2,
      s.status = ServerStatus.error ∧ s.error = some e := by
  rcases ho with rfl | rfl | rfl
  all_goals
    simp only [MCPServerConnection.connect, hsf, Bool.false_eq_true, if_false]
    exact ⟨by simp, (connectFail_fst _ e).1, (connectFail_fst _ e).2.2.1,
      connect_fail_branch _ e _ rfl⟩

theorem connect_failure_disconnected_with_error_witness :
    (initConn "bad" cfgEmptyCmd).session = false ∧
    ((MCPServerConnection.connect (initConn "bad" cfgEmptyCmd)
        (ConnectOutcome.failInit "handshake timed out")).1 = false ∧
     (MCPServerConnection.connect (initConn "bad" cfgEmptyCmd)
        (ConnectOutcome.failInit "handshake timed out")).2.1.status
        = ServerStatus.disconnected ∧
     (MCPServerConnection.connect (initConn "bad" cfgEmptyCmd)
        (ConnectOutcome.failInit "handshake timed out")).2.1.error
        = some "handshake timed out" ∧
     ∃ s ∈ (MCPServerConnection.connect (initConn "bad" cfgEmptyCmd)
        (ConnectOutcome.failInit "handshake timed out")).2.2,
       s.status = ServerStatus.error ∧ s.error = some "handshake timed out") :=
  ⟨rfl, connect_failure_disconnected_with_error (initConn "bad" cfgEmptyCmd)
    "handshake timed out" _ rfl (Or.inr (Or.inr rfl))⟩

theorem alookup_map_overwrite {β : Type} (k : String) (v : β) (d : List (String × β))
    (h : (alookup k d).isSome = true) :
    alookup k (d.map (fun p => if p.1 = k then (k, v) else p)) = some v := by
  induction d with
  | nil => simp [alookup] at h
  | cons p ps ih =>
      by_cases hp : p.1 = k
      · simp [alookup, hp]
      · simp only [alookup, hp, if_false] at h
        simp [alookup, hp, ih h]

theorem alookup_append_self {β : Type} (k : String) (v : β) (d : List (String × β))
    (h : alookup k d = none) :
    alookup k (d ++ [(k, v)]) = some v := by
  induction d with
  | nil => simp [alookup]
  | cons p ps ih =>
      by_cases hp : p.1 = k
      · simp [alookup, hp] at h
      · simp only [alookup, hp, if_false] at h
        simp [alookup, hp, ih h]

theorem alookup_dictInsert_self {β : Type} (d : List (String × β)) (k : String) (v : β) :
    alookup k (dictInsert d k v) = some v := by
  unfold dictInsert
  by_cases h : (alookup k d).isSome
  · simp only [h, if_true]
    exact alookup_map_overwrite k v d h
  · have hn : alookup k d = none := Option.not_isSome_iff_eq_none.mp h
    simp only [hn, Option.isSome_none, Bool.false_eq_true, if_false]
    exact alookup_append_self k v d hn

theorem connect_ok_iff (c : ConnState) (o : ConnectOutcome)
    (hc : c.session = true → c.status = ServerStatus.connected) :
    ((MCPServerConnection.connect c o).1 = true ↔
      (MCPServerConnection.connect c o).2.1.status = ServerStatus.connected) := by
  by_cases hs : c.session = true
  · simp [MCPServerConnection.connect, hs, hc hs]
  · have hsf : c.session = false := by simpa using hs
    cases o with
    | failStdio e =>
        simp only [MCPServerConnection.connect, hsf, Bool.false_eq_true, if_false]
        rw [(connectFail_fst _ e).1]
        simp
    | failSession e =>
        simp only [MCPServerConnection.connect, hsf, Bool.false_eq_true, if_false]
        rw [(connectFail_fst _ e).1]
        simp
    | failInit e =>
        simp only [MCPServerConnection.connect, hsf, Bool.false_eq_true, if_false]
        rw [(connectFail_fst _ e).1]
        simp
    | listFail => simp [MCPServerConnection.connect, hsf]
    | listOk ts => simp [MCPServerConnection.connect, hsf]

/-- C1 counterexample: with child c configured, a first enable whose connect
fails leaves c enabled but Disconnected; a second enable of c returns True
immediately while the state at return is not Connected, contradicting the
claimed equivalence of success and the Connected state for every prior
sequence of outcomes. -/
theorem enable_repeat_after_failure_not_connected :
    enableTwice.ok = true ∧
    alookup "c" enableTwice.state.servers = some connAfterFail ∧
    connAfterFail.status ≠ ServerStatus.connected := ⟨rfl, rfl, by decide⟩

/-- C1 (amended): for a configured id that is not yet in the enabled set
(given the resting-state invariant that a live session implies Connected),
enable_server returns success exactly when the child state at return is
Connected. If the id is already in the enabled set, enable_server returns
True without attempting a connect, whatever the child state. -/
theorem enable_fresh_ok_iff_connected (m : ManagerState) (sid : String)
    (o : ConnectOutcome) (cfg : ServerConfig)
    (hcfg : alookup sid m.configs = some cfg)
    (hen : sid ∉ m.enabled)
    (hinv : ∀ conn, alookup sid m.servers = some conn → conn.session = true →
      conn.status = ServerStatus.connected) :
    ∃ conn, alookup sid (MCPServerManager.enable_server m sid o).state.servers = some conn ∧
      ((MCPServerManager.enable_server m sid o).ok = true ↔
        conn.status = ServerStatus.connected) := by
  have hc : ((alookup sid m.servers).getD (initConn sid cfg)).session = true →
      ((alookup sid m.servers).getD (initConn sid cfg)).status = ServerStatus.connected := by
    cases hl : alookup sid m.servers with
    | none => intro h; simp [initConn] at h
    | some conn => simpa using hinv conn hl
  simp only [MCPServerManager.enable_server, hcfg]
  rw [if_neg hen]
  exact ⟨_, alookup_dictInsert_self _ _ _, connect_ok_iff _ o hc⟩

theorem enable_fresh_ok_iff_connected_witness :
    alookup "c" mFresh.configs = some cfgEx ∧ "c" ∉ mFresh.enabled ∧
    ∃ conn,
      alookup "c" (MCPServerManager.enable_server mFresh "c"
        (ConnectOutcome.listOk [toolT])).state.servers = some conn ∧
      ((MCPServerManager.enable_server mFresh "c"
        (ConnectOutcome.listOk [toolT])).ok = true ↔
        conn.status = ServerStatus.connected) :=
  ⟨rfl, by simp [mFresh], enable_fresh_ok_iff_connected mFresh "c"
    (ConnectOutcome.listOk [toolT]) cfgEx rfl (by simp [mFresh])
    (fun conn h => by simp [mFresh, alookup] at h)⟩

/-- C7 counterexample: a manager whose single connected child announced its
tools in the order beta, alpha. get_all_tools reproduces the catalog insertion
order, so the result is not sorted by child id and tool name as claimed. -/
theorem get_all_tools_not_sorted :
    MCPServerManager.get_all_tools mBetaAlpha = [("c", toolBeta), ("c", toolAlpha)] ∧
    pairsSortedB (MCPServerManager.get_all_tools mBetaAlpha) = false := ⟨rfl, rfl⟩

/-- C7 (amended): get_all_tools contains exactly the (child id, schema) pairs
of enabled children whose connection state is Connected, the children in the
enabled-set iteration order and each catalog in its insertion order; the
output is a pure function of the manager state but is not sorted by child id
and tool name. -/
theorem mem_get_all_tools_iff (m : ManagerState) (sid : String) (t : ToolSchema) :
    (sid, t) ∈ MCPServerManager.get_all_tools m ↔
      (sid ∈ m.enabled ∧ ∃ conn, alookup sid m.servers = some conn ∧
        conn.status = ServerStatus.connected ∧ t ∈ conn.tools.map Prod.snd) := by
  unfold MCPServerManager.get_all_tools
  rw [List.mem_flatMap]
  constructor
  · rintro ⟨a, ha, hmem⟩
    revert hmem
    cases hl : alookup a m.servers with
    | none => intro hmem; simp at hmem
    | some conn =>
        intro hmem
        dsimp only at hmem
        by_cases hc : conn.status = ServerStatus.connected
        · rw [if_pos hc, List.mem_map] at hmem
          obtain ⟨p, hp, heq⟩ := hmem
          have h1 : a = sid := congrArg Prod.fst heq
          have h2 : p.2 = t := congrArg Prod.snd heq
          subst h1
          exact ⟨ha, conn, hl, hc, List.mem_map.mpr ⟨p, hp, h2⟩⟩
        · rw [if_neg hc] at hmem
          simp at hmem
  · rintro ⟨hen, conn, hl, hc, ht⟩
    refine ⟨sid, hen, ?_⟩
    rw [hl]
    dsimp only
    rw [if_pos hc, List.mem_map]
    rw [List.mem_map] at ht
    obtain ⟨p, hp, hpt⟩ := ht
    exact ⟨p, hp, by rw [hpt]⟩

theorem foldl_append_map {α β : Type} (f : α → β) (l : List α) (acc : List β) :
    l.foldl (fun a x => a ++ [f x]) acc = acc ++ l.map f := by
  induction l generalizing acc with
  | nil => simp
  | cons x xs ih => simp [ih]

/-- C9: every tools/list response lists, for each (child id, schema) pair of
the catalog snapshot, an entry whose name is the child id, a double
underscore, and the tool name, whose description is the child id in square
brackets followed by the schema description, and whose inputSchema is the
schema input_schema verbatim. -/
theorem tools_list_entry_format (m : ManagerState) (reqId : Json) :
    Transport.handle_tools_list m reqId
      = RpcOut.ok reqId (Json.obj [("tools", Json.arr
          ((MCPServerManager.get_all_tools m).map (fun p =>
            Json.obj [("name", Json.str (p.1 ++ "__" ++ p.2.name)),
                      ("description", Json.str ("[" ++ p.1 ++ "] " ++ p.2.description)),
                      ("inputSchema", p.2.input_schema)])))]) := by
  unfold Transport.handle_tools_list Transport.toolsListEntries
  rw [foldl_append_map]
  simp

theorem findDunder_nil : findDunder [] = none := rfl

theorem findDunder_one (c : Char) : findDunder [c] = none := rfl

theorem findDunder_cons2 (c c2 : Char) (rest : List Char) :
    findDunder (c :: c2 :: rest)
      = if c = '_' ∧ c2 = '_' then some ([], rest)
        else
          match findDunder (c2 :: rest) with
          | some (a, b) => some (c :: a, b)
          | none => none := by
  rw [findDunder.eq_def]

theorem findDunder_sound (l : List Char) : ∀ a b : List Char,
    findDunder l = some (a, b) → l = a ++ '_' :: '_' :: b := by
  induction l with
  | nil => intro a b h; rw [findDunder_nil] at h; exact Option.noConfusion h
  | cons c cs ih =>
      intro a b h
      cases cs with
      | nil => rw [findDunder_one] at h; exact Option.noConfusion h
      | cons c2 rest =>
          rw [findDunder_cons2] at h
          by_cases hd : c = '_' ∧ c2 = '_'
          · rw [if_pos hd] at h
            injection h with h2
            injection h2 with ha hb
            subst ha; subst hb
            rw [hd.1, hd.2]
            rfl
          · rw [if_neg hd] at h
            cases hf : findDunder (c2 :: rest) with
            | none => rw [hf] at h; exact Option.noConfusion h
            | some p =>
                obtain ⟨a1, b1⟩ := p
                rw [hf] at h
                injection h with h2
                injection h2 with ha hb
                subst ha; subst hb
                rw [List.cons_append, ← ih a1 b1 hf]

theorem findDunder_none_no_split (l : List Char) : findDunder l = none →
    ∀ a b : List Char, l ≠ a ++ '_' :: '_' :: b := by
  induction l with
  | nil =>
      intro _ a b hsplit
      have hl := congrArg List.length hsplit
      simp [List.length_append] at hl
      omega
  | cons c cs ih =>
      intro h a b hsplit
      cases cs with
      | nil =>
          have hl := congrArg List.length hsplit
          simp [List.length_append] at hl
          omega
      | cons c2 rest =>
          rw [findDunder_cons2] at h
          by_cases hd : c = '_' ∧ c2 = '_'
          · rw [if_pos hd] at h; exact Option.noConfusion h
          · rw [if_neg hd] at h
            cases hf : findDunder (c2 :: rest) with
            | some p => obtain ⟨a1, b1⟩ := p; rw [hf] at h; exact Option.noConfusion h
            | none =>
                cases a with
                | nil =>
                    injection hsplit with hc htail
                    injection htail with hc2 htail2
                    exact hd ⟨hc, hc2⟩
                | cons x xs =>
                    injection hsplit with hc htail
                    exact ih hf xs b htail

theorem findDunder_minimal (l : List Char) : ∀ a b : List Char,
    findDunder l = some (a, b) →
    ∀ a2 b2 : List Char, l = a2 ++ '_' :: '_' :: b2 → a.length ≤ a2.length := by
  induction l with
  | nil => intro a b h; rw [findDunder_nil] at h; exact Option.noConfusion h
  | cons c cs ih =>
      intro a b h a2 b2 hsplit
      cases cs with
      | nil => rw [findDunder_one] at h; exact Option.noConfusion h
      | cons c2 rest =>
          rw [findDunder_cons2] at h
          by_cases hd : c = '_' ∧ c2 = '_'
          · rw [if_pos hd] at h
            injection h with h2
            injection h2 with ha hb
            subst ha
            simp
          · rw [if_neg hd] at h
            cases hf : findDunder (c2 :: rest) with
            | none => rw [hf] at h; exact Option.noConfusion h
            | some p =>
                obtain ⟨a1, b1⟩ := p
                rw [hf] at h
                injection h with h2
                injection h2 with ha hb
                subst ha
                cases a2 with
                | nil =>
                    injection hsplit with hc htail
                    injection htail with hc2 htail2
                    exact absurd ⟨hc, hc2⟩ hd
                | cons x xs =>
                    injection hsplit with hc htail
                    have := ih a1 b1 hf xs b2 htail
                    simpa using Nat.succ_le_succ this

theorem splitFirstDunder_sound (s sid tn : String)
    (h : splitFirstDunder s = some (sid, tn)) :
    s = sid ++ "__" ++ tn ∧
    ∀ a2 b2 : List Char, s.data = a2 ++ '_' :: '_' :: b2 → sid.data.length ≤ a2.length := by
  unfold splitFirstDunder at h
  cases hf : findDunder s.data with
  | none => rw [hf] at h; exact Option.noConfusion h
  | some p =>
      obtain ⟨a, b⟩ := p
      rw [hf] at h
      injection h with h2
      injection h2 with ha hb
      subst ha; subst hb
      constructor
      · have hd := findDunder_sound s.data a b hf
        refine congrArg String.mk ?_
        rw [hd]
        simp [String.data_append]
      · intro a2 b2 hsplit
        exact findDunder_minimal s.data a b hf a2 b2 hsplit

/-- C5: the tools/call dispatcher rejects a params.name without a double
underscore (name absent included, defaulting to the empty string) with
JSON-RPC code -32602 and routes nothing to the manager; for a name containing
the separator, it routes to the manager exactly the pair obtained by splitting
the name at its first (leftmost) occurrence. -/
theorem tools_call_split_routing (m : ManagerState) (reqId : Json)
    (pname : Option String) (args : Json) (child : Except String (List SDKContent)) :
    ((¬ ∃ a b : List Char, (pname.getD "").data = a ++ '_' :: '_' :: b) →
      Transport.handle_tools_call m reqId pname args child
        = ⟨none, RpcOut.err reqId (-32602)
            ("Invalid tool name format: " ++ pname.getD ""
              ++ ". Expected: server_id__tool_name")⟩) ∧
    ((∃ a b : List Char, (pname.getD "").data = a ++ '_' :: '_' :: b) →
      ∃ sid tn,
        (Transport.handle_tools_call m reqId pname args child).routed = some (sid, tn) ∧
        pname.getD "" = sid ++ "__" ++ tn ∧
        ∀ a2 b2 : List Char, (pname.getD "").data = a2 ++ '_' :: '_' :: b2 →
          sid.data.length ≤ a2.length) := by
  constructor
  · intro hno
    cases hsp : splitFirstDunder (pname.getD "") with
    | some p =>
        obtain ⟨a, b⟩ := p
        have hs := splitFirstDunder_sound _ a b hsp
        refine absurd ⟨a.data, b.data, ?_⟩ hno
        rw [hs.1]
        simp [String.data_append]
    | none =>
        unfold Transport.handle_tools_call
        dsimp only
        rw [hsp]
  · rintro ⟨a, b, hab⟩
    cases hsp : splitFirstDunder (pname.getD "") with
    | none =>
        unfold splitFirstDunder at hsp
        cases hf : findDunder (pname.getD "").data with
        | some p => rw [hf] at hsp; exact Option.noConfusion hsp
        | none => exact absurd hab (findDunder_none_no_split _ hf a b)
    | some p =>
        obtain ⟨sid, tn⟩ := p
        have hs := splitFirstDunder_sound _ sid tn hsp
        refine ⟨sid, tn, ?_, hs.1, hs.2⟩
        unfold Transport.handle_tools_call
        dsimp only
        rw [hsp]
        dsimp only
        cases MCPServerManager.call_tool m sid tn child <;> rfl

theorem tools_call_split_routing_witness :
    (∃ a b : List Char, (("x__y" : String)).data = a ++ '_' :: '_' :: b) ∧
    (∃ sid tn,
      (Transport.handle_tools_call mEmpty Json.null (some "x__y") Json.null
        (Except.error "boom")).routed = some (sid, tn) ∧
      ("x__y" : String) = sid ++ "__" ++ tn ∧
      ∀ a2 b2 : List Char, (("x__y" : String)).data = a2 ++ '_' :: '_' :: b2 →
        sid.data.length ≤ a2.length) :=
  ⟨⟨"x".data, "y".data, rfl⟩,
    (tools_call_split_routing mEmpty Json.null (some "x__y") Json.null
      (Except.error "boom")).2 ⟨"x".data, "y".data, rfl⟩⟩

/-- C6 counterexample: a well-formed namespaced name whose child id names no
known child is answered with JSON-RPC code -32603 (the blanket exception
handler of the dispatcher), not the claimed -32602. -/
theorem unknown_child_code_not_32602 :
    (Transport.handle_tools_call mEmpty Json.null (some "x__y") Json.null
        (Except.error "unused")).out
      = RpcOut.err Json.null (-32603) ("Server x not found") ∧
    (-32603 : Int) ≠ -32602 := ⟨rfl, by decide⟩

/-- C6 (amended): a well-formed namespaced name whose recovered child id names
no known child, or whose recovered tool name is not in that (connected)
child's catalog, is answered with JSON-RPC code -32603: the manager raises
RuntimeError and the dispatcher's blanket handler maps every manager
exception to -32603, reserving -32602 for names without a separator. -/
theorem unknown_child_or_tool_yields_32603 (m : ManagerState) (reqId : Json)
    (pname : Option String) (args : Json) (child : Except String (List SDKContent))
    (sid tn : String) (hsp : splitFirstDunder (pname.getD "") = some (sid, tn)) :
    (alookup sid m.servers = none →
      (Transport.handle_tools_call m reqId pname args child).out
        = RpcOut.err reqId (-32603) ("Server " ++ sid ++ " not found")) ∧
    (∀ conn, alookup sid m.servers = some conn →
      conn.status = ServerStatus.connected → alookup tn conn.tools = none →
      (Transport.handle_tools_call m reqId pname args child).out
        = RpcOut.err reqId (-32603) ("Tool " ++ tn ++ " not found on server " ++ sid)) := by
  constructor
  · intro hnone
    have hm : MCPServerManager.call_tool m sid tn child
        = Except.error ("Server " ++ sid ++ " not found") := by
      unfold MCPServerManager.call_tool
      rw [hnone]
    unfold Transport.handle_tools_call
    dsimp only
    rw [hsp]
    dsimp only
    rw [hm]
  · intro conn hconn hst htool
    have hm : MCPServerManager.call_tool m sid tn child
        = Except.error ("Tool " ++ tn ++ " not found on server " ++ sid) := by
      unfold MCPServerManager.call_tool
      rw [hconn]
      dsimp only
      simp [hst, htool]
    unfold Transport.handle_tools_call
    dsimp only
    rw [hsp]
    dsimp only
    rw [hm]

theorem unknown_child_or_tool_yields_32603_witness :
    splitFirstDunder "x__y" = some ("x", "y") ∧
    alookup "x" mEmpty.servers = none ∧
    (Transport.handle_tools_call mEmpty Json.null (some "x__y") Json.null
        (Except.error "unused")).out
      = RpcOut.err Json.null (-32603) ("Server " ++ "x" ++ " not found") :=
  ⟨rfl, rfl, (unknown_child_or_tool_yields_32603 mEmpty Json.null (some "x__y")
      Json.null (Except.error "unused") "x" "y" rfl).1 rfl⟩

/-- C8 counterexample: a tool call addressed to a configured child whose
connection is not Connected is answered by the REST faces with HTTP 200
(success false) at /api/tools and HTTP 500 at /tools; neither is the claimed
409. -/
theorem rest_not_connected_not_409 :
    (Rest.api_call_tool mDown "c" "t" (Except.error "unused")).status = 200 ∧
    (Rest.execute_tool mDown "c" "t" (Except.error "unused")).status = 500 ∧
    (200 : Nat) ≠ 409 ∧ (500 : Nat) ≠ 409 := ⟨rfl, rfl, by decide, by decide⟩

/-- C8 (amended): a tool call addressed to a configured child that is not in
the Connected state yields HTTP 200 with success false at
/api/tools/server/tool, HTTP 500 at /tools/server/tool, and the JSON-RPC
transport surfaces the same condition with error code -32603. -/
theorem not_connected_rest_and_rpc (m : ManagerState) (sid tn : String)
    (child : Except String (List SDKContent)) (cfg : ServerConfig) (conn : ConnState)
    (_hcfg : alookup sid m.configs = some cfg)
    (hconn : alookup sid m.servers = some conn)
    (hst : conn.status ≠ ServerStatus.connected) :
    (Rest.api_call_tool m sid tn child).status = 200 ∧
    (Rest.api_call_tool m sid tn child).success = false ∧
    (Rest.execute_tool m sid tn child).status = 500 ∧
    ∀ reqId pname args, splitFirstDunder (pname.getD "") = some (sid, tn) →
      (Transport.handle_tools_call m reqId pname args child).out
        = RpcOut.err reqId (-32603) ("Server " ++ sid ++ " is not connected") := by
  have hm : MCPServerManager.call_tool m sid tn child
      = Except.error ("Server " ++ sid ++ " is not connected") := by
    unfold MCPServerManager.call_tool
    rw [hconn]
    dsimp only
    simp [hst]
  refine ⟨?_, ?_, ?_, ?_⟩
  · unfold Rest.api_call_tool
    rw [hm]
  · unfold Rest.api_call_tool
    rw [hm]
  · unfold Rest.execute_tool
    rw [hm]
  · intro reqId pname args hsp
    unfold Transport.handle_tools_call
    dsimp only
    rw [hsp]
    dsimp only
    rw [hm]

theorem not_connected_rest_and_rpc_witness :
    alookup "c" mDown.configs = some cfgEx ∧
    alookup "c" mDown.servers = some connDown ∧
    connDown.status ≠ ServerStatus.connected ∧
    ((Rest.api_call_tool mDown "c" "t" (Except.error "x")).status = 200 ∧
     (Rest.api_call_tool mDown "c" "t" (Except.error "x")).success = false ∧
     (Rest.execute_tool mDown "c" "t" (Except.error "x")).status = 500 ∧
     ∀ reqId pname args, splitFirstDunder (pname.getD "") = some ("c", "t") →
       (Transport.handle_tools_call mDown reqId pname args (Except.error "x")).out
         = RpcOut.err reqId (-32603) ("Server " ++ "c" ++ " is not connected")) :=
  ⟨rfl, rfl, by decide, not_connected_rest_and_rpc mDown "c" "t" (Except.error "x")
    cfgEx connDown rfl rfl (by decide)⟩

/-- C4 counterexample: the content array the MCP transport delivers is the
normalized array produced in the child-session layer; for a non-text element
the delivered object differs from the child's wire element (the mimeType
field is gone and data holds the str() rendering), so MCP transport clients
do observe the normalization. -/
theorem transport_content_not_verbatim :
    (Transport.handle_tools_call mUp Json.null (some "c__t") Json.null
        (Except.ok [imgContent])).out
      = RpcOut.ok Json.null
          (Json.obj [("content", Json.arr [normalizeContent imgContent])]) ∧
    normalizeContent imgContent ≠ wireContent imgContent := by
  refine ⟨rfl, ?_⟩
  intro h
  exact absurd (congrArg (jsonHasKey "mimeType") h) (by decide)

/-- C4 (amended): for every successful tools/call on a Connected child, the
transport delivers exactly the content array normalized in
MCPServerConnection.call_tool, with no further change in the transport layer,
and the REST face returns the same normalized array: the normalization is
observable by MCP transport clients exactly as by REST clients. -/
theorem transport_and_rest_deliver_normalized (m : ManagerState) (reqId : Json)
    (pname : Option String) (args : Json) (sid tn : String)
    (cs : List SDKContent) (conn : ConnState)
    (hsp : splitFirstDunder (pname.getD "") = some (sid, tn))
    (hconn : alookup sid m.servers = some conn)
    (hst : conn.status = ServerStatus.connected) (hsess : conn.session = true)
    (htool : alookup tn conn.tools ≠ none) :
    (Transport.handle_tools_call m reqId pname args (Except.ok cs)).out
      = RpcOut.ok reqId (Json.obj [("content", Json.arr (cs.map normalizeContent))]) ∧
    (Rest.api_call_tool m sid tn (Except.ok cs)).result
      = some (cs.map normalizeContent) := by
  have hm : MCPServerManager.call_tool m sid tn (Except.ok cs)
      = Except.ok (cs.map normalizeContent) := by
    unfold MCPServerManager.call_tool MCPServerConnection.call_tool
    rw [hconn]
    dsimp only
    simp [hst, hsess, Option.isNone_iff_eq_none, htool]
  constructor
  · unfold Transport.handle_tools_call
    dsimp only
    rw [hsp]
    dsimp only
    rw [hm]
  · unfold Rest.api_call_tool
    rw [hm]

theorem transport_and_rest_deliver_normalized_witness :
    splitFirstDunder "c__t" = some ("c", "t") ∧
    alookup "c" mUp.servers = some connUp ∧
    connUp.status = ServerStatus.connected ∧ connUp.session = true ∧
    alookup "t" connUp.tools ≠ none ∧
    ((Transport.handle_tools_call mUp Json.null (some "c__t") Json.null
        (Except.ok [SDKContent.text "hi"])).out
      = RpcOut.ok Json.null (Json.obj [("content",
          Json.arr ([SDKContent.text "hi"].map normalizeContent))]) ∧
     (Rest.api_call_tool mUp "c" "t" (Except.ok [SDKContent.text "hi"])).result
      = some ([SDKContent.text "hi"].map normalizeContent)) :=
  ⟨rfl, rfl, rfl, rfl, by simp [connUp, alookup], transport_and_rest_deliver_normalized
    mUp Json.null (some "c__t") Json.null "c" "t" [SDKContent.text "hi"] connUp
    rfl rfl rfl rfl (by simp [connUp, alookup])⟩
